import Mathlib

/-!
Shallow embedding of the Wedding-AI-Server application (src/app.py) in Lean 4.

The program is a single Flask/watchdog script. The parts the claims concern:
  - the pickle-backed store named face_database, with load_database and
    save_database (app.py lines 24-38);
  - the noise guard and the commit loop of process_file (lines 57-76);
  - the watchdog handler NewPhotoHandler.on_created (lines 79-83);
  - the query route home with its inline cosine-distance scan (lines 86-146).

External collaborators (DeepFace, pickle, the filesystem) are modelled at
their interface boundary: a DeepFace result is an Option (List (List Real))
parameter, where none models a raised exception, and the pickle blob on disk
is a DBFile value that is missing, corrupt (fails to unpickle) or a faithful
blob of the pickled record list, since pickle round-trips lists of dicts of
strings and floats byte-exactly. Embedding coordinates are modelled as real
numbers. Python string methods startswith and endswith and the function
os.path.basename are modelled character-by-character, matching their
documented semantics on the character sequence of the string.
-/

namespace WeddingAI

/-- Python str.startswith: the first characters of s, as many as p has,
equal p. -/
def strStartsWith (s p : String) : Bool :=
  s.data.take p.data.length == p.data

/-- Python str.endswith: the last characters of s, as many as p has,
equal p. -/
def strEndsWith (s p : String) : Bool :=
  s.data.drop (s.data.length - p.data.length) == p.data

/-- Python os.path.basename for POSIX paths: the part of the path after the
last slash. -/
def os_path_basename (p : String) : String :=
  ⟨p.data.foldl (fun acc c => if c = '/' then [] else acc ++ [c]) []⟩

/-- One entry of face_database: the dict with keys path and embedding built
at app.py lines 68-71, holding the source filename and one face embedding
vector returned by DeepFace. -/
structure EmbeddingRecord where
  path : String
  embedding : List ℝ

/-- State of the pickle file database.pkl on disk. missing models a
non-existent file, corrupt a file whose contents make pickle.load raise, and
ok recs a pickle blob of the record list recs (pickle serialisation of such
lists is faithful, so a well-formed blob is identified with its contents). -/
inductive DBFile where
  | missing : DBFile
  | corrupt : DBFile
  | ok (records : List EmbeddingRecord) : DBFile

/-- The mutable module-level state of app.py that the claims concern: the
global list face_database (line 24, initialised to the empty list) and the
on-disk file DB_FILE. -/
structure SysState where
  face_database : List EmbeddingRecord
  db_file : DBFile

/-- Embedding of load_database (app.py lines 26-34): if the file exists, try
to unpickle it into face_database, and on any exception set face_database to
the empty list; if the file does not exist, leave face_database unchanged
(it is the empty list at module initialisation, line 24). -/
def load_database (s : SysState) : SysState :=
  match s.db_file with
  | .missing => s
  | .corrupt => { s with face_database := [] }
  | .ok recs => { s with face_database := recs }

/-- Embedding of save_database (app.py lines 36-38): pickle the whole
in-memory list into DB_FILE, overwriting the previous contents. -/
def save_database (s : SysState) : SysState :=
  { s with db_file := .ok s.face_database }

/-- The guard on app.py line 58: process_file returns immediately when the
filename starts with a dot or ends with the suffix .tmp; true means the file
is rejected (skipped) by this noise filter. -/
def process_file_rejects (filename : String) : Bool :=
  strStartsWith filename "." || strEndsWith filename ".tmp"

/-- The two store-mutating statements of app.py: the call
face_database.append(...) on line 68 and the call save_database() on
line 73. The append is a single atomic operation under the CPython global
interpreter lock. The save is the whole call on lines 36-38, opening the
file in mode wb (which truncates it) and then streaming the pickle blob;
the interpreter lock is released around the OS-level writes, so a save is
atomic only with respect to the in-memory list (which it never changes),
not with respect to the file. -/
inductive StoreOp where
  | append (r : EmbeddingRecord) : StoreOp
  | save : StoreOp

/-- Predicate picking out the save operation among store operations. -/
def StoreOp.isSave : StoreOp → Bool
  | .save => true
  | .append _ => false

/-- Effect of one store operation on the system state: append extends
face_database by one record at the end (Python list.append), save overwrites
the on-disk file with a pickle blob of the current face_database. The memory
effect of each operation is exact under any thread interleaving. The file
effect given for save is only its uncontended, sequential effect - what the
file holds once the save has completed with no other thread writing the
file meanwhile; when saves of several threads are in flight at once their
truncations and streamed writes can interleave and tear the file, which
this one-step model does not capture, so no theorem below concludes
anything about db_file from an interleaved trace. -/
def runOp (s : SysState) : StoreOp → SysState
  | .append r => { s with face_database := s.face_database ++ [r] }
  | .save => { s with db_file := .ok s.face_database }

/-- Effect of a sequence of store operations, run left to right. -/
def runOps (s : SysState) (ops : List StoreOp) : SysState :=
  ops.foldl runOp s

/-- The commit phase of process_file (app.py lines 65-73) as a sequence of
store operations: when DeepFace returned the embeddings embs, append one
record per embedding, in order, and then save once, after the loop. -/
def commitOps (filename : String) (embs : List (List ℝ)) : List StoreOp :=
  embs.map (fun e => StoreOp.append ⟨filename, e⟩) ++ [StoreOp.save]

/-- Embedding of process_file (app.py lines 57-76) as the sequence of store
operations it performs. The parameter results is the outcome of
generate_embedding (a black box): none when it returned None (DeepFace
raised), some embs when it returned the list embs. A rejected filename, a
None result and an empty result list all perform no store operation; the
Python truthiness test on line 65 makes both None and the empty list skip
the commit loop. -/
def process_file (filename : String) (results : Option (List (List ℝ))) : List StoreOp :=
  if process_file_rejects filename then []
  else
    match results with
    | none => []
    | some [] => []
    | some embs => commitOps filename embs

/-- A watchdog filesystem event as delivered to NewPhotoHandler.on_created:
whether the event is about a directory, and the source path. -/
structure FsEvent where
  is_directory : Bool
  src_path : String

/-- Embedding of NewPhotoHandler.on_created (app.py lines 80-83): for a
directory event do nothing; otherwise start a new thread running
process_file on the basename of the event path. The returned value is the
filename the spawned ingestion task will process, none when no task is
spawned. The handler keeps no record of paths already being processed. -/
def on_created (e : FsEvent) : Option String :=
  if e.is_directory then none else some (os_path_basename e.src_path)

/-- The ingestion tasks spawned by a sequence of filesystem events: one task
per non-directory event, in order, with no deduplication. -/
def spawnedTasks (events : List FsEvent) : List String :=
  events.filterMap on_created

/-- Embedding of scipy.spatial.distance.cosine: one minus the inner product
of the two vectors divided by the product of their Euclidean norms. The
inner product of two lists is the sum of coordinatewise products. -/
noncomputable def cosine (u v : List ℝ) : ℝ :=
  1 - (List.zipWith (· * ·) u v).sum /
    (Real.sqrt ((List.zipWith (· * ·) u u).sum) * Real.sqrt ((List.zipWith (· * ·) v v).sum))

open Classical in
/-- The inner loop of the route home (app.py lines 118-134) for one face
found in the uploaded selfie: scan every entry of the database and collect
the path of each entry whose cosine distance to the target vector is
strictly below the hardcoded threshold 0.40 (line 132). -/
noncomputable def matchesForFace (db : List EmbeddingRecord) (target_vector : List ℝ) : List String :=
  db.filterMap (fun entry =>
    if cosine target_vector entry.embedding < 0.40 then some entry.path else none)

/-- The match list computed by the route home (app.py lines 112-136): the
per-face match lists of all faces found in the selfie, concatenated in
order, then deduplicated (line 136, list(set(matches))); Python set
iteration order is unspecified, so deduplication is modelled by List.dedup
and the claims about the result concern membership and duplicate-freedom. -/
noncomputable def homeMatches (db : List EmbeddingRecord) (selfie_results : List (List ℝ)) :
    List String :=
  (selfie_results.flatMap (matchesForFace db)).dedup

/-- An HTTP request to the route home, reduced to what the code inspects:
the method (POST or not), the uploaded file part (none when the form has no
file part, some fname for a file named fname), and the outcome of
DeepFace.represent on the saved upload (none when it raised, caught on
line 141). -/
structure QueryRequest where
  is_post : Bool
  upload : Option String
  selfie_results : Option (List (List ℝ))

/-- Embedding of the route home (app.py lines 86-146) as a state transformer
returning the new system state together with the match list handed to the
template. A GET, a missing or empty-named upload, a raised extraction and an
empty extraction all render with an empty match list; a non-empty extraction
renders with the match list of homeMatches. No branch writes to
face_database or to the database file. -/
noncomputable def home (req : QueryRequest) (s : SysState) : SysState × List String :=
  if req.is_post then
    match req.upload with
    | none => (s, [])
    | some fname =>
      if fname = "" then (s, [])
      else
        match req.selfie_results with
        | none => (s, [])
        | some [] => (s, [])
        | some results => (s, homeMatches s.face_database results)
  else (s, [])

/-- The store operations one ingestion task performs for a photo with a
single detected face: one append (app.py line 68) followed by one save
(line 73). -/
def threadOps (r : EmbeddingRecord) : List StoreOp :=
  [StoreOp.append r, StoreOp.save]

/-- Interleavings of two instruction sequences: Interleave xs ys zs holds
when zs is a merge of xs and ys that keeps the internal order of each. The
code takes no lock around lines 65-73, so any interleaving of the store
operations of two concurrently running ingestion threads is schedulable;
the CPython global interpreter lock only makes each single operation
atomic. -/
inductive Interleave : List StoreOp → List StoreOp → List StoreOp → Prop where
  | nil : Interleave [] [] []
  | left {x : StoreOp} {xs ys zs : List StoreOp} :
      Interleave xs ys zs → Interleave (x :: xs) ys (x :: zs)
  | right {y : StoreOp} {xs ys zs : List StoreOp} :
      Interleave xs ys zs → Interleave xs (y :: ys) (y :: zs)

/-- Schedules of any number of concurrent threads: Sched ts tr holds when
the trace tr is an interleaving of the per-thread operation sequences ts
that keeps the internal order of each thread. At every point the scheduler
may run any thread (the perm rule reorders the thread pool, step runs the
front thread for one operation, skip retires a finished thread); the code
takes no lock, so every such schedule is possible in the program. -/
inductive Sched : List (List StoreOp) → List StoreOp → Prop where
  | nil : Sched [] []
  | skip {ts : List (List StoreOp)} {tr : List StoreOp} :
      Sched ts tr → Sched ([] :: ts) tr
  | step {x : StoreOp} {xs : List StoreOp} {ts : List (List StoreOp)} {tr : List StoreOp} :
      Sched (xs :: ts) tr → Sched ((x :: xs) :: ts) (x :: tr)
  | perm {ts ts' : List (List StoreOp)} {tr : List StoreOp} :
      ts.Perm ts' → Sched ts' tr → Sched ts tr

/-- The records appended along a trace of store operations, in trace
order. -/
def appendedRecords (ops : List StoreOp) : List EmbeddingRecord :=
  ops.filterMap (fun op =>
    match op with
    | .append r => some r
    | .save => none)

/-! Helper lemmas shared between the claim theorems. -/

/-- Cosine distance of the unit vector e1 to itself is zero. -/
lemma cosine_e1_e1 : cosine [(1 : ℝ), 0] [1, 0] = 0 := by
  norm_num [cosine, Real.sqrt_one]

/-- Cosine distance of the unit vector e2 to itself is zero. -/
lemma cosine_e2_e2 : cosine [(0 : ℝ), 1] [0, 1] = 0 := by
  norm_num [cosine, Real.sqrt_one]

/-- Cosine distance between the orthogonal unit vectors e1 and e2 is one. -/
lemma cosine_e1_e2 : cosine [(1 : ℝ), 0] [0, 1] = 1 := by
  norm_num [cosine, Real.sqrt_one]

/-- Cosine distance between the orthogonal unit vectors e2 and e1 is one. -/
lemma cosine_e2_e1 : cosine [(0 : ℝ), 1] [1, 0] = 1 := by
  norm_num [cosine, Real.sqrt_one]

/-- A vector identical to the query is under the 0.40 threshold. -/
lemma lt_thr_e1_e1 : cosine [(1 : ℝ), 0] [1, 0] < 0.40 := by
  rw [cosine_e1_e1]; norm_num

/-- A vector identical to the query is under the 0.40 threshold. -/
lemma lt_thr_e2_e2 : cosine [(0 : ℝ), 1] [0, 1] < 0.40 := by
  rw [cosine_e2_e2]; norm_num

/-- A vector orthogonal to the query is not under the 0.40 threshold. -/
lemma not_lt_thr_e1_e2 : ¬ cosine [(1 : ℝ), 0] [0, 1] < 0.40 := by
  rw [cosine_e1_e2]; norm_num

/-- A vector orthogonal to the query is not under the 0.40 threshold. -/
lemma not_lt_thr_e2_e1 : ¬ cosine [(0 : ℝ), 1] [1, 0] < 0.40 := by
  rw [cosine_e2_e1]; norm_num

/-- Membership characterisation of the match list of the route home: a path
is returned exactly when some face of the selfie is within the threshold of
some database record carrying that path. -/
lemma mem_homeMatches {db : List EmbeddingRecord} {qs : List (List ℝ)} {p : String} :
    p ∈ homeMatches db qs ↔
      ∃ q ∈ qs, ∃ e ∈ db, e.path = p ∧ cosine q e.embedding < 0.40 := by
  simp only [homeMatches, List.mem_dedup, List.mem_flatMap, matchesForFace,
    List.mem_filterMap]
  constructor
  · rintro ⟨q, hq, e, he, hif⟩
    by_cases h : cosine q e.embedding < 0.40
    · rw [if_pos h] at hif
      exact ⟨q, hq, e, he, Option.some.inj hif, h⟩
    · rw [if_neg h] at hif
      cases hif
  · rintro ⟨q, hq, e, he, hp, h⟩
    exact ⟨q, hq, e, he, by rw [if_pos h, hp]⟩

/-- Flattening respects permutation of the outer list. -/
lemma flatten_perm_of_perm {ts ts' : List (List StoreOp)} (h : ts.Perm ts') :
    ts.flatten.Perm ts'.flatten := by
  induction h with
  | nil => exact List.Perm.refl _
  | cons x _ ih =>
    simp only [List.flatten_cons]
    exact List.Perm.append_left x ih
  | swap x y l =>
    simp only [List.flatten_cons, ← List.append_assoc]
    exact List.Perm.append_right _ List.perm_append_comm
  | trans _ _ ih1 ih2 => exact ih1.trans ih2

/-- A schedule trace is a permutation of the concatenation of its
threads. -/
lemma sched_perm_flatten {ts : List (List StoreOp)} {tr : List StoreOp}
    (h : Sched ts tr) : tr.Perm ts.flatten := by
  induction h with
  | nil => exact List.Perm.refl _
  | skip _ ih => simpa [List.flatten_cons] using ih
  | @step x xs ts tr _ ih => simpa [List.flatten_cons] using List.Perm.cons x ih
  | perm hp _ ih => exact ih.trans (flatten_perm_of_perm hp).symm

/-- Appended records of concatenated traces. -/
lemma appendedRecords_append (a b : List StoreOp) :
    appendedRecords (a ++ b) = appendedRecords a ++ appendedRecords b := by
  simp [appendedRecords]

/-- One single-face ingestion thread appends exactly its record. -/
lemma appendedRecords_threadOps (r : EmbeddingRecord) :
    appendedRecords (threadOps r) = [r] := rfl

/-- The pool of single-face threads for the record list rs appends exactly
rs when run thread after thread. -/
lemma appendedRecords_flatten_threads (rs : List EmbeddingRecord) :
    appendedRecords ((rs.map threadOps).flatten) = rs := by
  induction rs with
  | nil => rfl
  | cons r rs ih =>
    rw [List.map_cons, List.flatten_cons, appendedRecords_append,
      appendedRecords_threadOps, ih]
    rfl

/-- Memory effect of an arbitrary trace: face_database gains exactly the
records appended along the trace, in trace order; saves never change it. -/
lemma runOps_fd (s : SysState) (tr : List StoreOp) :
    (runOps s tr).face_database = s.face_database ++ appendedRecords tr := by
  induction tr generalizing s with
  | nil => simp [runOps, appendedRecords]
  | cons op tr ih =>
    cases op with
    | append r =>
      show (runOps (runOp s (StoreOp.append r)) tr).face_database = _
      rw [ih]
      simp [runOp, appendedRecords]
    | save =>
      show (runOps (runOp s StoreOp.save) tr).face_database = _
      rw [ih]
      simp [runOp, appendedRecords]

/-! Claim theorems. -/

/-- C1: search returns a photo reference exactly when the cosine distance
between a query vector and a record vector with that reference is strictly
below the threshold 0.40; for the store with vectors e1 and e2 and the
query e1, search returns exactly the reference of the first record. -/
theorem C1_search_threshold :
    (∀ (db : List EmbeddingRecord) (qs : List (List ℝ)) (p : String),
        p ∈ homeMatches db qs ↔
          ∃ q ∈ qs, ∃ e ∈ db, e.path = p ∧ cosine q e.embedding < 0.40)
    ∧ homeMatches [⟨"photo1", [1, 0]⟩, ⟨"photo2", [0, 1]⟩] [[(1 : ℝ), 0]] = ["photo1"] := by
  refine ⟨fun db qs p => mem_homeMatches, ?_⟩
  simp [homeMatches, matchesForFace, lt_thr_e1_e1, not_lt_thr_e1_e2]

/-- C5: saving a store and loading it back yields the same record list,
whatever the file held before and for any non-empty store. -/
theorem C5_round_trip (fd : List EmbeddingRecord) (f : DBFile) (h : fd ≠ []) :
    (load_database (save_database ⟨fd, f⟩)).face_database = fd := rfl

/-- Witness for C5 at a concrete one-record store. -/
theorem C5_round_trip_witness :
    ([⟨"w.jpg", [1, 0]⟩] : List EmbeddingRecord) ≠ []
    ∧ (load_database (save_database ⟨[⟨"w.jpg", [1, 0]⟩], DBFile.missing⟩)).face_database
        = [⟨"w.jpg", [1, 0]⟩] :=
  ⟨by simp, C5_round_trip [⟨"w.jpg", [1, 0]⟩] DBFile.missing (by simp)⟩

/-- C6: loading with a missing file leaves the store empty (face_database
is the empty list at module initialisation), and loading a corrupt file
yields the empty store whatever was in memory, with no error propagated. -/
theorem C6_load_resilience :
    (load_database ⟨[], DBFile.missing⟩).face_database = []
    ∧ ∀ (prev : List EmbeddingRecord),
        (load_database ⟨prev, DBFile.corrupt⟩).face_database = [] :=
  ⟨rfl, fun _ => rfl⟩

/-- C7: the match list of the route home never contains a duplicate photo
reference, and a store with two matching records both referencing x.jpg
yields the reference exactly once. -/
theorem C7_dedup :
    (∀ (db : List EmbeddingRecord) (qs : List (List ℝ)), (homeMatches db qs).Nodup)
    ∧ homeMatches [⟨"x.jpg", [1, 0]⟩, ⟨"x.jpg", [1, 0]⟩] [[(1 : ℝ), 0]] = ["x.jpg"] := by
  refine ⟨fun db qs => List.nodup_dedup _, ?_⟩
  simp [homeMatches, matchesForFace, lt_thr_e1_e1]

/-- C8: the match list for a multi-face query is the union over the faces of
their individual matches; for a query with faces e1 and e2 against records
A (vector e1) and B (vector e2), both references are returned. -/
theorem C8_union :
    (∀ (db : List EmbeddingRecord) (qs₁ qs₂ : List (List ℝ)) (p : String),
        p ∈ homeMatches db (qs₁ ++ qs₂) ↔
          p ∈ homeMatches db qs₁ ∨ p ∈ homeMatches db qs₂)
    ∧ homeMatches [⟨"a.jpg", [1, 0]⟩, ⟨"b.jpg", [0, 1]⟩] [[(1 : ℝ), 0], [0, 1]]
        = ["a.jpg", "b.jpg"] := by
  constructor
  · intro db qs₁ qs₂ p
    simp only [mem_homeMatches]
    constructor
    · rintro ⟨q, hq, hrest⟩
      rcases List.mem_append.mp hq with h | h
      · exact Or.inl ⟨q, h, hrest⟩
      · exact Or.inr ⟨q, h, hrest⟩
    · rintro (⟨q, hq, hrest⟩ | ⟨q, hq, hrest⟩)
      · exact ⟨q, List.mem_append.mpr (Or.inl hq), hrest⟩
      · exact ⟨q, List.mem_append.mpr (Or.inr hq), hrest⟩
  · simp [homeMatches, matchesForFace, lt_thr_e1_e1, lt_thr_e2_e2,
      not_lt_thr_e1_e2, not_lt_thr_e2_e1]

/-- C10: the route home never changes the system state: whatever the method,
upload and extraction outcome, the state after the request, including
face_database and the on-disk file, is the state before it. -/
theorem C10_query_pure (req : QueryRequest) (s : SysState) :
    (home req s).1 = s := by
  unfold home
  repeat' split
  all_goals rfl

/-- C2 counterexample: the noise guard on line 58 does not reject the RAW
filename photo.dng; process_file goes on to commit records for it when
DeepFace reports a face. -/
theorem C2_counterexample :
    process_file_rejects "photo.dng" = false
    ∧ process_file "photo.dng" (some [[(1 : ℝ), 0]]) ≠ [] := by
  have h : process_file_rejects "photo.dng" = false := by decide
  exact ⟨h, by simp [process_file, h, commitOps]⟩

/-- C2 amended: the noise filter rejects exactly filenames that start with a
dot or end with the case-sensitive suffix .tmp, so a.tmp and .DS_Store are
rejected while photo.jpg, photo.HEIC and also photo.dng are accepted; a
rejected filename produces no store operation whatever DeepFace would have
returned. -/
theorem C2_noise_filter_amended :
    (∀ (fn : String) (results : Option (List (List ℝ))),
        process_file_rejects fn = true → process_file fn results = [])
    ∧ process_file_rejects "a.tmp" = true
    ∧ process_file_rejects ".DS_Store" = true
    ∧ process_file_rejects "photo.jpg" = false
    ∧ process_file_rejects "photo.HEIC" = false
    ∧ process_file_rejects "photo.dng" = false := by
  refine ⟨fun fn results h => by simp [process_file, h], ?_, ?_, ?_, ?_, ?_⟩ <;> decide

/-- Witness for C2 amended: the rejected filename a.tmp yields no store
operation even when an embedding would have been available. -/
theorem C2_noise_filter_amended_witness :
    process_file "a.tmp" (some [[(1 : ℝ), 0]]) = [] :=
  C2_noise_filter_amended.1 "a.tmp" (some [[(1 : ℝ), 0]]) (by decide)

/-- C3 counterexample: two duplicate creation events for the same path spawn
two ingestion tasks for it, not one; the handler has no in-flight set and
drops nothing. -/
theorem C3_counterexample :
    spawnedTasks [⟨false, "incoming_photos/a.jpg"⟩, ⟨false, "incoming_photos/a.jpg"⟩]
        = ["a.jpg", "a.jpg"]
    ∧ (spawnedTasks
        [⟨false, "incoming_photos/a.jpg"⟩, ⟨false, "incoming_photos/a.jpg"⟩]).length ≠ 1 := by
  decide

/-- C3 amended: the handler spawns one ingestion task per non-directory
creation event, so N duplicate events for one path spawn N tasks on the
basename of that path, with no deduplication. -/
theorem C3_amended (e : FsEvent) (n : ℕ) (h : e.is_directory = false) :
    spawnedTasks (List.replicate n e) = List.replicate n (os_path_basename e.src_path) := by
  induction n with
  | zero => rfl
  | succ n ih =>
    rw [List.replicate_succ, List.replicate_succ, spawnedTasks, List.filterMap_cons]
    rw [show on_created e = some (os_path_basename e.src_path) by rw [on_created, h]; rfl]
    rw [← spawnedTasks, ih]

/-- Witness for C3 amended: three duplicate events for a concrete path spawn
three tasks. -/
theorem C3_amended_witness :
    spawnedTasks (List.replicate 3 ⟨false, "incoming_photos/a.jpg"⟩)
      = List.replicate 3 (os_path_basename "incoming_photos/a.jpg") :=
  C3_amended ⟨false, "incoming_photos/a.jpg"⟩ 3 rfl

/-- Record used by the concrete schedules of claim C4. -/
def recA : EmbeddingRecord := ⟨"a.jpg", [1, 0]⟩

/-- Record used by the concrete schedules of claim C4. -/
def recB : EmbeddingRecord := ⟨"b.jpg", [0, 1]⟩

/-- A schedule of two single-face ingestion threads in which the two appends
happen before either save. -/
def racyTrace : List StoreOp :=
  [StoreOp.append recA, StoreOp.append recB, StoreOp.save, StoreOp.save]

/-- C4 counterexample: the store operations of two concurrent ingestion
threads are not serialized; the schedule appending both records before
either save is a legal interleaving of the two threads although neither
thread runs as a contiguous block in it. -/
theorem C4_counterexample :
    Interleave (threadOps recA) (threadOps recB) racyTrace
    ∧ racyTrace ≠ threadOps recA ++ threadOps recB
    ∧ racyTrace ≠ threadOps recB ++ threadOps recA := by
  refine ⟨?_, ?_, ?_⟩
  · exact Interleave.left (Interleave.right (Interleave.left (Interleave.right Interleave.nil)))
  · simp [racyTrace, threadOps]
  · simp [racyTrace, threadOps, recA, recB]

/-- C4 amended: the code takes no lock, so every schedule of the store
operations of any number of concurrent single-record ingestion tasks is
possible; under every such schedule each append lands (Python list append
is a single atomic operation under the interpreter lock), so the final
in-memory store holds exactly the initial records plus the N new ones,
none lost and none duplicated. Nothing is concluded about the on-disk file
under concurrent saves: a save is open in mode wb plus a streamed
pickle.dump with the interpreter lock released around OS writes, so
interleaved saves can tear the file, below the granularity of this
model. -/
theorem C4_amended (s : SysState) (rs : List EmbeddingRecord) (tr : List StoreOp)
    (h : Sched (rs.map threadOps) tr) :
    (runOps s tr).face_database.length = s.face_database.length + rs.length
    ∧ (runOps s tr).face_database.Perm (s.face_database ++ rs) := by
  have hperm : (appendedRecords tr).Perm rs := by
    have h2 : tr.Perm ((rs.map threadOps).flatten) := sched_perm_flatten h
    have h3 : (appendedRecords tr).Perm
        (appendedRecords ((rs.map threadOps).flatten)) := by
      unfold appendedRecords
      exact List.Perm.filterMap _ h2
    rwa [appendedRecords_flatten_threads] at h3
  constructor
  · rw [runOps_fd]
    simp [List.length_append, hperm.length_eq]
  · rw [runOps_fd]
    exact List.Perm.append_left _ hperm

/-- Witness for C4 amended: the racy schedule of two single-record threads
from the empty store yields both records and size two. -/
theorem C4_amended_witness :
    (runOps ⟨[], DBFile.ok []⟩ racyTrace).face_database.length
        = ([] : List EmbeddingRecord).length + ([recA, recB] : List EmbeddingRecord).length
    ∧ (runOps ⟨[], DBFile.ok []⟩ racyTrace).face_database.Perm
        (([] : List EmbeddingRecord) ++ [recA, recB]) :=
  C4_amended ⟨[], DBFile.ok []⟩ [recA, recB] racyTrace
    (Sched.step (Sched.perm (List.Perm.swap (threadOps recB) [StoreOp.save] [])
      (Sched.step (Sched.step (Sched.skip (Sched.step (Sched.skip Sched.nil)))))))

/-- C9 counterexample: for a photo with two faces, after the first append
completes the on-disk file still holds the previous snapshot, not the
in-memory list; persistence is deferred to the end of the per-file loop. -/
theorem C9_counterexample :
    (runOps ⟨[], DBFile.ok []⟩ ((commitOps "two_faces.jpg" [[(1 : ℝ), 0], [0, 1]]).take 1)).db_file
      ≠ DBFile.ok
        ((runOps ⟨[], DBFile.ok []⟩
          ((commitOps "two_faces.jpg" [[(1 : ℝ), 0], [0, 1]]).take 1)).face_database) := by
  simp [commitOps, runOps, runOp]

/-- Running a batch of appends extends face_database by the batch, in
order. -/
lemma runOps_batch_fd (s : SysState) (rs : List EmbeddingRecord) :
    (runOps s (rs.map StoreOp.append)).face_database = s.face_database ++ rs := by
  induction rs generalizing s with
  | nil => simp [runOps]
  | cons r rs ih =>
    simp only [List.map_cons, runOps, List.foldl_cons] at *
    rw [ih]
    simp [runOp]

/-- Running a batch of appends leaves the on-disk file untouched. -/
lemma runOps_batch_db (s : SysState) (rs : List EmbeddingRecord) :
    (runOps s (rs.map StoreOp.append)).db_file = s.db_file := by
  induction rs generalizing s with
  | nil => simp [runOps]
  | cons r rs ih =>
    simp only [List.map_cons, runOps, List.foldl_cons] at *
    rw [ih]
    simp [runOp]

/-- C9 amended: the commit phase of process_file appends exactly one record
per face, in order, and persists once, after the loop; when the commit of a
file finishes, the on-disk file is a blob of the in-memory list, but within
the loop persistence is deferred (one save per file, not per append). -/
theorem C9_amended (s : SysState) (fn : String) (embs : List (List ℝ)) :
    (runOps s (commitOps fn embs)).face_database
        = s.face_database ++ embs.map (fun e => ⟨fn, e⟩)
    ∧ (runOps s (commitOps fn embs)).db_file
        = DBFile.ok ((runOps s (commitOps fn embs)).face_database)
    ∧ (commitOps fn embs).countP StoreOp.isSave = 1 := by
  have hmap : embs.map (fun e => StoreOp.append ⟨fn, e⟩)
      = (embs.map (fun e => (⟨fn, e⟩ : EmbeddingRecord))).map StoreOp.append := by
    rw [List.map_map]
    rfl
  have hsplit : runOps s (commitOps fn embs)
      = runOp (runOps s ((embs.map (fun e => (⟨fn, e⟩ : EmbeddingRecord))).map StoreOp.append))
          StoreOp.save := by
    rw [commitOps, hmap]
    simp [runOps, List.foldl_append]
  refine ⟨?_, ?_, ?_⟩
  · rw [hsplit]
    simp only [runOp]
    exact runOps_batch_fd s _
  · rw [hsplit]
    simp only [runOp]
  · rw [commitOps]
    rw [List.countP_append, hmap, List.countP_map]
    simp [StoreOp.isSave, Function.comp]

end WeddingAI

